import Mathlib

/-!
Shallow embedding of the answer-location resolver of `proxmox-auto-installer`
(files `src/fetch_plugins/http.rs` and `src/fetch_plugins/utils/mod.rs`).

Strings are modelled as Lean `String`, manipulated through their character
lists; the source operates on UTF-8 Rust strings and all inputs relevant here
are ASCII, where byte indices and character indices coincide.  Fallible Rust
functions returning `Result` are modelled with `Except String`; functions that
can additionally panic (a byte-range slice out of bounds) return `RunResult`.
Process invocations (`dig`, `mount`) are modelled by their observable outcome:
spawn error, or exit status plus stdout/stderr bytes, where `Option String`
is the result of UTF-8 decoding (`none` = invalid UTF-8, on which the Rust
code's `String::from_utf8(..)?` returns an error).
-/

deriving instance DecidableEq for Except

namespace PveInstaller

/-- Outcome of running a code path that can panic (`.crash`), return an error
(`.err`, Rust `Err`), or succeed. -/
inductive RunResult (α : Type) where
  | crash : RunResult α
  | err : String → RunResult α
  | ok : α → RunResult α
deriving DecidableEq

/-- Observable outcome of `Command::..::output()`: the spawn itself failed, or
the process ran with an exit status (`success`), stdout and stderr.  The two
`Option String` fields are the UTF-8 decodings of the output byte vectors
(`none` models bytes that are not valid UTF-8). -/
inductive ProcOutput where
  | spawnErr : String → ProcOutput
  | ran : Bool → Option String → Option String → ProcOutput

/- ---------- Rust std string operations, modelled on character lists ---------- -/

/-- Splitter state machine of Rust `str::split(c)`: keeps empty segments,
yields one segment even for the empty string. -/
def splitCharAux (c : Char) : List Char → List Char → List (List Char)
  | [], acc => [acc.reverse]
  | x :: xs, acc =>
    if x = c then acc.reverse :: splitCharAux c xs [] else splitCharAux c xs (x :: acc)

/-- Rust `str::split(' ')`. -/
def splitSpace (s : String) : List String :=
  (splitCharAux (Char.ofNat 32) s.data []).map String.mk

/-- Rust `str::trim` (whitespace stripped from both ends). -/
def trimStr (s : String) : String :=
  String.mk (((s.data.dropWhile Char.isWhitespace).reverse.dropWhile Char.isWhitespace).reverse)

/-- Rust `str::starts_with`. -/
def startsWithStr (s pre : String) : Bool :=
  List.isPrefixOf pre.data s.data

/-- Rust `str::len` (character count; equals byte count on ASCII input). -/
def lengthStr (s : String) : Nat := s.data.length

/-- Drop the first `n` characters (the slice `s[n..]`). -/
def dropStr (s : String) (n : Nat) : String := String.mk (s.data.drop n)

/-- Drop the last `n` characters (the slice `s[..len-n]`). -/
def dropRightStr (s : String) (n : Nat) : String :=
  String.mk (s.data.take (s.data.length - n))

/-- Rust `str::replace('"', "")`: remove every double-quote character. -/
def removeQuotes (s : String) : String :=
  String.mk (s.data.filter (fun c => c ≠ Char.ofNat 34))

/-- Rust `str::to_uppercase` (ASCII). -/
def toUpperStr (s : String) : String := String.mk (s.data.map Char.toUpper)

/-- Rust `str::to_lowercase` (ASCII). -/
def toLowerStr (s : String) : String := String.mk (s.data.map Char.toLower)

/-- Rust `str::lines`: split at each `\n`, drop the final empty segment that a
trailing newline produces, and strip one trailing `\r` from each line. -/
def linesOf (s : String) : List String :=
  let parts := (splitCharAux (Char.ofNat 10) s.data []).map String.mk
  let parts := if parts.getLast? = some "" then parts.dropLast else parts
  parts.map fun l =>
    if l.data.getLast? = some (Char.ofNat 13) then String.mk l.data.dropLast else l

/-- Rust `str::split_once(' ')`: the text before the first space and the rest;
`none` when the string contains no space. -/
def splitOnceSpace (s : String) : Option (String × String) :=
  match splitSpace s with
  | [] => none
  | [_] => none
  | a :: rest => some (a, " ".intercalate rest)

/- ---------- http.rs constants ---------- -/

def ANSWER_SUBDOMAIN : String := "proxmoxinst"
def ANSWER_SUBDOMAIN_FP : String := "proxmoxinst-fp"
def DHCP_URL_OPTION : String := "proxmoxinst-url"
def DHCP_FP_OPTION : String := "proxmoxinst-fp"

/- ---------- DHCP lease scanner (http.rs, FetchFromHTTP::fetch_dhcp) ---------- -/

/-- `line.split(' ').nth_back(0)` — the last space-delimited token. -/
def lastTokOpt (l : String) : Option String := (splitSpace l).getLast?

/-- Total form of `lastTokOpt` (`splitSpace` never yields an empty list). -/
def lastTok (l : String) : String := (lastTokOpt l).getD ""

/-- `FetchFromHTTP::strip_dhcp_option`: `value.map(|v| v[1..v.len()-2])`.
The byte-range slice panics whenever the token holds fewer than three
characters (`len-2` underflows, or the range is inverted / out of bounds),
which `RunResult.crash` models. -/
def strip_dhcp_option : Option String → RunResult (Option String)
  | none => .ok none
  | some v =>
    if lengthStr v < 3 then .crash
    else .ok (some (dropRightStr (dropStr v 1) 2))

def urlMatch : String := "option " ++ DHCP_URL_OPTION
def fpMatch : String := "option " ++ DHCP_FP_OPTION

/-- `line.trim().starts_with("option proxmoxinst-url")`. -/
def isUrlLine (l : String) : Bool := startsWithStr (trimStr l) urlMatch

/-- `line.trim().starts_with("option proxmoxinst-fp")`. -/
def isFpLine (l : String) : Bool := startsWithStr (trimStr l) fpMatch

/-- One `if opt.is_none() && line.trim().starts_with(..)` step of the lease
loop body: adopt the stripped last token when the slot is free and the line
matches, otherwise keep the current value. -/
def scanStep (cur : Option String) (cond : Bool) (l : String) : RunResult (Option String) :=
  if cur.isNone && cond then strip_dhcp_option (lastTokOpt l) else .ok cur

/-- The `for line in leases.lines()` loop of `fetch_dhcp`, with the two
mutable slots `answer_url` and `fingerprint` passed explicitly. -/
def scanLines : List String → Option String → Option String → RunResult (Option String × Option String)
  | [], url, fp => .ok (url, fp)
  | l :: rest, url, fp =>
    match scanStep url (isUrlLine l) l with
    | .crash => .crash
    | .err e => .err e
    | .ok url' =>
      match scanStep fp (isFpLine l) l with
      | .crash => .crash
      | .err e => .err e
      | .ok fp' => scanLines rest url' fp'

/-- `FetchFromHTTP::fetch_dhcp`.  `leases` is the outcome of
`fs::read_to_string(DHCP_LEASE_FILE)` (`none` = unreadable, the `?` turns it
into an error). -/
def fetch_dhcp (leases : Option String) (fingerprint : Option String) :
    RunResult (String × Option String) :=
  match leases with
  | none => .err "could not read DHCP lease file"
  | some content =>
    match scanLines (linesOf content) none fingerprint with
    | .crash => .crash
    | .err e => .err e
    | .ok (none, _) => .err "No DHCP option found for fetch URL."
    | .ok (some url, fp) => .ok (url, fp)

/- ---------- DNS TXT resolver (http.rs) ---------- -/

/-- `FetchFromHTTP::get_search_domain` inner loop over `resolv.conf` lines:
return the trimmed value of the first line whose first token is `search`. -/
def findSearch : List String → Except String String
  | [] => .error "Could not find search domain in resolv.conf."
  | l :: rest =>
    match splitOnceSpace l with
    | some (key, value) => if key = "search" then .ok (trimStr value) else findSearch rest
    | none => findSearch rest

/-- `FetchFromHTTP::get_search_domain`; `resolvConf` is the outcome of
`read_to_string("/etc/resolv.conf")`. -/
def get_search_domain (resolvConf : Option String) : Except String String :=
  match resolvConf with
  | none => .error "could not read /etc/resolv.conf"
  | some content => findSearch (linesOf content)

/-- `FetchFromHTTP::query_txt_record`, parametrised by the observable outcome
of the `dig txt +short <query>` invocation. -/
def query_txt_record (dig : String → ProcOutput) (query : String) : Except String String :=
  match dig query with
  | .spawnErr e => .error ("Error querying DNS record '" ++ query ++ "': " ++ e)
  | .ran success stdout stderr =>
    if success then
      match stdout with
      | none => .error "stdout is not valid UTF-8"
      | some out =>
        let url := trimStr (removeQuotes out)
        if url = "" then .error "Got empty response." else .ok url
    else
      match stderr with
      | none => .error "stderr is not valid UTF-8"
      | some e => .error ("Error querying DNS record '" ++ query ++ "' : " ++ e)

/-- `FetchFromHTTP::fetch_dns`.  Besides the result, the list of DNS queries
issued (arguments handed to `dig`) is returned, so that theorems can speak
about which lookups were performed. -/
def fetch_dns (resolvConf : Option String) (dig : String → ProcOutput)
    (fingerprint : Option String) :
    Except String (String × Option String) × List String :=
  match get_search_domain resolvConf with
  | .error e => (.error e, [])
  | .ok sd =>
    let q1 := ANSWER_SUBDOMAIN ++ "." ++ sd
    match query_txt_record dig q1 with
    | .error e => (.error e, [q1])
    | .ok url =>
      match fingerprint with
      | some fp => (.ok (url, some fp), [q1])
      | none =>
        let q2 := ANSWER_SUBDOMAIN_FP ++ "." ++ sd
        match query_txt_record dig q2 with
        | .ok fp => (.ok (url, some fp), [q1, q2])
        | .error _ => (.ok (url, none), [q1, q2])

/- ---------- Resolver orchestration (http.rs, FetchFromHTTP::get_answer) ---------- -/

/-- Environment a resolver run observes: the outcome of
`get_cert_fingerprint_from_file()`, the DHCP lease file content (`none` =
unreadable), the `resolv.conf` content, and the `dig` process behaviour. -/
structure Env where
  fpFile : Except String String
  leases : Option String
  resolvConf : Option String
  dig : String → ProcOutput

/-- The `match Self::get_cert_fingerprint_from_file()` step of `get_answer`:
a file-read error is logged and yields `None`. -/
def fileFingerprint (env : Env) : Option String :=
  match env.fpFile with
  | .ok fp => some fp
  | .error _ => none

/-- The answer-location resolution core of `FetchFromHTTP::get_answer`
(lines 44-62 of http.rs): probe the fingerprint file, then DHCP, then — only
on DHCP failure — DNS.  Returns the resolved `(url, fingerprint)` pair
together with the list of DNS queries issued.  The subsequent persisting of
the fingerprint and the HTTPS POST of the answer request are external to the
resolution and are not modelled. -/
def get_answer_location (env : Env) : RunResult (String × Option String) × List String :=
  let fingerprint := fileFingerprint env
  match fetch_dhcp env.leases fingerprint with
  | .ok (url, fp) => (.ok (url, fp), [])
  | .crash => (.crash, [])
  | .err _ =>
    match fetch_dns env.resolvConf env.dig fingerprint with
    | (.ok (url, fp), qs) => (.ok (url, fp), qs)
    | (.error e, qs) => (.err e, qs)

/- ---------- utils/mod.rs: partition locator and mounter ---------- -/

def ANSWER_MP : String := "/mnt/answer"
def PARTLABEL : String := "proxmoxinst"
def SEARCH_PATH : String := "/dev/disk/by-label"

/-- `utils::scan_partlabels`, parametrised by the filesystem's
`Path::try_exists` behaviour (`.ok true` / `.ok false` / `.error`).  The
uppercase path is probed first; `Ok(false)` and `Err(_)` both merely log and
fall through, exactly as in the source. -/
def scan_partlabels (partlabel_source search_path : String)
    (tryExists : String → Except String Bool) : Except String String :=
  let upperPath := search_path ++ "/" ++ toUpperStr partlabel_source
  match tryExists upperPath with
  | .ok true => .ok upperPath
  | _ =>
    let lowerPath := search_path ++ "/" ++ toLowerStr partlabel_source
    match tryExists lowerPath with
    | .ok true => .ok lowerPath
    | _ =>
      .error ("Could not detect upper or lower case labels for '" ++ partlabel_source ++ "'")

/-- `line.split(' ').nth(1)` — the second space-delimited token. -/
def secondTok (l : String) : Option String := (splitSpace l).get? 1

/-- `utils::check_if_mounted`: scan `/proc/mounts` lines for one whose second
field equals the target path (the loop's early `return Ok(true)` is the
first-match semantics of `List.any`). -/
def check_if_mounted (target_path : String) (procMounts : Option String) :
    Except String Bool :=
  match procMounts with
  | none => .error "could not read /proc/mounts"
  | some mounts => .ok ((linesOf mounts).any fun l => secondTok l == some target_path)

/-- Environment a `mount_proxmoxinst_part` run observes: `/proc/mounts`
content (`none` = unreadable), the filesystem's `try_exists` behaviour, the
outcome of `create_dir_all(ANSWER_MP)`, and the outcome of the `mount`
process invocation. -/
structure MountEnv where
  procMounts : Option String
  tryExists : String → Except String Bool
  createDir : Except String Unit
  mountCmd : ProcOutput

/-- How many times a `mount_proxmoxinst_part` run invoked the partition scan,
`create_dir_all`, and the external `mount` command. -/
structure MountTrace where
  scanCalls : Nat
  mkdirCalls : Nat
  mountCalls : Nat
deriving DecidableEq

/-- `utils::mount_proxmoxinst_part`, returning its result paired with the
trace of side-effecting calls it performed.  A failing `mount` command whose
stderr decodes logs a warning and still returns the mount point; stderr that
is not UTF-8 makes `String::from_utf8(output.stderr)?` return early with an
error. -/
def mount_proxmoxinst_part (env : MountEnv) : Except String String × MountTrace :=
  match check_if_mounted ANSWER_MP env.procMounts with
  | .ok true => (.ok ANSWER_MP, ⟨0, 0, 0⟩)
  | _ =>
    match scan_partlabels PARTLABEL SEARCH_PATH env.tryExists with
    | .error e => (.error e, ⟨1, 0, 0⟩)
    | .ok _ =>
      match env.createDir with
      | .error e => (.error e, ⟨1, 1, 0⟩)
      | .ok _ =>
        match env.mountCmd with
        | .spawnErr e => (.error ("Error mounting: " ++ e), ⟨1, 1, 1⟩)
        | .ran success _ stderr =>
          if success then (.ok ANSWER_MP, ⟨1, 1, 1⟩)
          else
            match stderr with
            | none => (.error "stderr is not valid UTF-8", ⟨1, 1, 1⟩)
            | some _ => (.ok ANSWER_MP, ⟨1, 1, 1⟩)

/- ---------- Lemmas: the lease scan never touches an already-set fingerprint ---------- -/

theorem scanStep_some (x : String) (cond : Bool) (l : String) :
    scanStep (some x) cond l = .ok (some x) := rfl

theorem scanLines_some_fp (ls : List String) :
    ∀ (url : Option String) (fp : String) (u f : Option String),
    scanLines ls url (some fp) = .ok (u, f) → f = some fp := by
  induction ls with
  | nil =>
    intro url fp u f h
    simp only [scanLines, RunResult.ok.injEq, Prod.mk.injEq] at h
    exact h.2.symm
  | cons l rest ih =>
    intro url fp u f h
    simp only [scanLines] at h
    cases hs : scanStep url (isUrlLine l) l with
    | crash => rw [hs] at h; exact absurd h (by simp)
    | err e => rw [hs] at h; exact absurd h (by simp)
    | ok url' =>
      rw [hs, scanStep_some] at h
      exact ih url' fp u f h

theorem fetch_dhcp_preserves_fp (leases : Option String) (fp : String)
    (url : String) (fpo : Option String)
    (h : fetch_dhcp leases (some fp) = .ok (url, fpo)) : fpo = some fp := by
  cases leases with
  | none => exact absurd h (by simp [fetch_dhcp])
  | some content =>
    simp only [fetch_dhcp] at h
    cases hscan : scanLines (linesOf content) none (some fp) with
    | crash => rw [hscan] at h; exact absurd h (by simp)
    | err e => rw [hscan] at h; exact absurd h (by simp)
    | ok pair =>
      obtain ⟨uopt, f⟩ := pair
      rw [hscan] at h
      cases uopt with
      | none => exact absurd h (by simp)
      | some u =>
        simp only [RunResult.ok.injEq, Prod.mk.injEq] at h
        exact h.2 ▸ scanLines_some_fp (linesOf content) none fp (some u) f hscan

theorem fetch_dns_preserves_fp (resolvConf : Option String) (dig : String → ProcOutput)
    (fp : String) (url : String) (fpo : Option String) (qs : List String)
    (h : fetch_dns resolvConf dig (some fp) = (.ok (url, fpo), qs)) : fpo = some fp := by
  simp only [fetch_dns] at h
  cases hsd : get_search_domain resolvConf with
  | error e => rw [hsd] at h; exact absurd h (by simp)
  | ok sd =>
    rw [hsd] at h
    cases hq : query_txt_record dig (ANSWER_SUBDOMAIN ++ "." ++ sd) with
    | error e => simp only [hq] at h; exact absurd h (by simp)
    | ok u =>
      simp only [hq, Prod.mk.injEq, Except.ok.injEq] at h
      exact h.1.2.symm ▸ rfl

theorem fetch_dhcp_never_clears (leases : Option String) (fpin : Option String)
    (url : String) (h : fetch_dhcp leases fpin = .ok (url, none)) : fpin = none := by
  cases fpin with
  | none => rfl
  | some fp => exact Option.noConfusion (fetch_dhcp_preserves_fp leases fp url none h)

theorem fetch_dns_never_clears (resolvConf : Option String) (dig : String → ProcOutput)
    (fpin : Option String) (url : String) (qs : List String)
    (h : fetch_dns resolvConf dig fpin = (.ok (url, none), qs)) : fpin = none := by
  cases fpin with
  | none => rfl
  | some fp => exact Option.noConfusion (fetch_dns_preserves_fp resolvConf dig fp url none qs h)

theorem get_answer_file_fp_wins (env : Env) (fp url : String) (fpo : Option String)
    (qs : List String) (hf : env.fpFile = .ok fp)
    (h : get_answer_location env = (.ok (url, fpo), qs)) : fpo = some fp := by
  have hff : fileFingerprint env = some fp := by simp [fileFingerprint, hf]
  simp only [get_answer_location, hff] at h
  cases hd : fetch_dhcp env.leases (some fp) with
  | crash => rw [hd] at h; exact absurd h (by simp)
  | ok pair =>
    obtain ⟨u, f⟩ := pair
    rw [hd] at h
    simp only [Prod.mk.injEq, RunResult.ok.injEq] at h
    exact h.1.2 ▸ fetch_dhcp_preserves_fp env.leases fp u f hd
  | err e =>
    rw [hd] at h
    rcases hdns : fetch_dns env.resolvConf env.dig (some fp) with ⟨r, qs'⟩
    rw [hdns] at h
    cases r with
    | error e2 => exact absurd h (by simp)
    | ok pair =>
      obtain ⟨u, f⟩ := pair
      simp only [Prod.mk.injEq, RunResult.ok.injEq] at h
      exact h.1.2 ▸ fetch_dns_preserves_fp env.resolvConf env.dig fp u f qs' hdns

/-- C1: once a fingerprint is obtained from a higher-precedence source, no
lower-precedence source overwrites it.  (1) `fetch_dhcp` returns a passed-in
`some` fingerprint unchanged; (2) so does `fetch_dns`; (3) and (4): a source
yielding no fingerprint leaves it unset — a successful result carrying `none`
is only possible when the fingerprint was never set; (5) consequently a
fingerprint read from the partition file survives the whole resolution. -/
theorem fingerprint_precedence_invariant :
    (∀ (leases : Option String) (fp url : String) (fpo : Option String),
       fetch_dhcp leases (some fp) = .ok (url, fpo) → fpo = some fp)
  ∧ (∀ (rc : Option String) (dig : String → ProcOutput) (fp url : String)
       (fpo : Option String) (qs : List String),
       fetch_dns rc dig (some fp) = (.ok (url, fpo), qs) → fpo = some fp)
  ∧ (∀ (leases fpin : Option String) (url : String),
       fetch_dhcp leases fpin = .ok (url, none) → fpin = none)
  ∧ (∀ (rc : Option String) (dig : String → ProcOutput) (fpin : Option String)
       (url : String) (qs : List String),
       fetch_dns rc dig fpin = (.ok (url, none), qs) → fpin = none)
  ∧ (∀ (env : Env) (fp url : String) (fpo : Option String) (qs : List String),
       env.fpFile = .ok fp → get_answer_location env = (.ok (url, fpo), qs) → fpo = some fp) :=
  ⟨fetch_dhcp_preserves_fp, fetch_dns_preserves_fp, fetch_dhcp_never_clears,
   fetch_dns_never_clears, get_answer_file_fp_wins⟩

/-- Lease file of the C1 witness: it advertises a URL and a fingerprint that
differs from the one the partition file already pinned. -/
def leaseC1 : String :=
  "option proxmoxinst-url \"http://a\";\noption proxmoxinst-fp \"DD:EE:FF\";"

/-- Environment of the C1 witness: the partition file pins `AA:BB:CC` while
DHCP advertises a different fingerprint. -/
def envC1 : Env :=
  { fpFile := .ok "AA:BB:CC", leases := some leaseC1,
    resolvConf := none, dig := fun _ => .spawnErr "no dig" }

theorem fingerprint_precedence_invariant_witness :
    fetch_dhcp (some leaseC1) (some "AA:BB:CC") = .ok ("http://a", some "AA:BB:CC")
  ∧ get_answer_location envC1 = (.ok ("http://a", some "AA:BB:CC"), [])
  ∧ (some "AA:BB:CC" : Option String) = some "AA:BB:CC" :=
  ⟨by decide, by decide,
   fingerprint_precedence_invariant.2.2.2.2 envC1 "AA:BB:CC" "http://a" (some "AA:BB:CC") []
     (by decide) (by decide)⟩

/- ---------- C2 / C3: orchestration order ---------- -/

/-- Environment whose DHCP lease yields a URL while the DNS oracle would
yield a different one — resolution must not even consult it. -/
def envC2 : Env :=
  { fpFile := .error "could not find cert fingerprint file",
    leases := some "option proxmoxinst-url \"http://10.0.0.5/answer.toml\";",
    resolvConf := some "search example.com",
    dig := fun _ => .ran true (some "\"http://evil.example/answer\"") (some "") }

/-- C2: whenever the DHCP source succeeds, `get_answer_location` adopts the
DHCP-returned URL and fingerprint and issues zero DNS queries, for every DNS
state; in particular, with a lease URL option and no fingerprint anywhere,
the result is that URL with no fingerprint even though the DNS oracle would
answer differently. -/
theorem dhcp_success_short_circuits_dns :
    (∀ (env : Env) (url : String) (fp : Option String),
       fetch_dhcp env.leases (fileFingerprint env) = .ok (url, fp) →
       get_answer_location env = (.ok (url, fp), []))
  ∧ get_answer_location envC2 = (.ok ("http://10.0.0.5/answer.toml", none), []) := by
  constructor
  · intro env url fp h
    simp only [get_answer_location, h]
  · decide

/-- Environment of the C2 witness (fingerprint file set, lease URL set, DNS
oracle answering something else). -/
def envC2w : Env :=
  { fpFile := .ok "AA:BB", leases := some "option proxmoxinst-url \"http://b\";",
    resolvConf := some "search example.com",
    dig := fun _ => .ran true (some "\"http://evil.example/answer\"") (some "") }

theorem dhcp_success_short_circuits_dns_witness :
    get_answer_location envC2w = (.ok ("http://b", some "AA:BB"), []) :=
  dhcp_success_short_circuits_dns.1 envC2w "http://b" (some "AA:BB") (by decide)

/-- C3: when the DHCP source fails and the DNS source also fails, the
resolution returns an error (the DNS one — there is no further fallback) and
no `(url, fingerprint)` pair is produced. -/
theorem resolver_terminal_failure (env : Env) (e1 e2 : String)
    (h1 : fetch_dhcp env.leases (fileFingerprint env) = .err e1)
    (h2 : (fetch_dns env.resolvConf env.dig (fileFingerprint env)).1 = .error e2) :
    (get_answer_location env).1 = .err e2 := by
  simp only [get_answer_location, h1]
  rcases hdns : fetch_dns env.resolvConf env.dig (fileFingerprint env) with ⟨r, qs⟩
  rw [hdns] at h2
  cases r with
  | error e => cases h2; rfl
  | ok pair => exact absurd h2 (by simp)

/-- Environment with all three discovery sources unavailable. -/
def envC3 : Env :=
  { fpFile := .error "no cert fingerprint file", leases := none,
    resolvConf := none, dig := fun _ => .spawnErr "no dig" }

theorem resolver_terminal_failure_witness :
    (get_answer_location envC3).1 = .err "could not read /etc/resolv.conf" :=
  resolver_terminal_failure envC3 "could not read DHCP lease file"
    "could not read /etc/resolv.conf" (by decide) (by decide)

/- ---------- C5 / C10: malformed option values ---------- -/

/-- C5: evaluation of the scanner at a matched option line whose last token
is not in the expected quoted format (`http://x;`, no opening quote): the
scan does NOT propagate an error — it silently slices the token and returns
the coerced value `ttp://`. -/
theorem dhcp_unquoted_token_coerced :
    fetch_dhcp (some "option proxmoxinst-url http://x;") none = .ok ("ttp://", none) := by
  decide

/-- Environment whose lease file ends in a matched URL-option line with a
bare-quote value token. -/
def envC10 : Env :=
  { fpFile := .error "no cert fingerprint file",
    leases := some "option proxmoxinst-url \"",
    resolvConf := none, dig := fun _ => .spawnErr "no dig" }

/-- C10: `strip_dhcp_option` is partial — on a matched option line whose last
whitespace-delimited token is shorter than three bytes (here a bare `"`), the
byte-range slice `value[1..value.len()-2]` panics, so `fetch_dhcp` and hence
the public `get_answer` entry point crash instead of returning an error. -/
theorem strip_short_token_crash :
    strip_dhcp_option (some "\"") = .crash
  ∧ fetch_dhcp (some "option proxmoxinst-url \"") none = .crash
  ∧ get_answer_location envC10 = (.crash, []) :=
  ⟨by decide, by decide, by decide⟩

/- ---------- C4: first-occurrence-wins characterisation of the lease scan ---------- -/

/-- The first of two optional values, mirroring how an already-set slot of
the lease scan shadows anything found later. -/
def firstSome (a b : Option String) : Option String :=
  match a with
  | some x => some x
  | none => b

/-- The value a well-formed matched lease line contributes: its last
space-delimited token with the leading `"` and the trailing `";` sliced off. -/
def stripTok (l : String) : String := dropRightStr (dropStr (lastTok l) 1) 2

theorem firstSome_none_right (a : Option String) : firstSome a none = a := by
  cases a <;> rfl

theorem firstSome_assoc (a b c : Option String) :
    firstSome (firstSome a b) c = firstSome a (firstSome b c) := by
  cases a <;> cases b <;> rfl

theorem splitCharAux_ne_nil (c : Char) (xs : List Char) :
    ∀ acc : List Char, splitCharAux c xs acc ≠ [] := by
  induction xs with
  | nil => intro acc; simp [splitCharAux]
  | cons x xs ih =>
    intro acc
    simp only [splitCharAux]
    split
    · simp
    · exact ih _

theorem lastTokOpt_eq (l : String) : lastTokOpt l = some (lastTok l) := by
  have hne : splitSpace l ≠ [] := by
    intro hx
    exact splitCharAux_ne_nil (Char.ofNat 32) l.data [] (List.map_eq_nil_iff.mp hx)
  unfold lastTok lastTokOpt
  rw [List.getLast?_eq_getLast _ hne]
  rfl

theorem scanStep_ok (cur : Option String) (cond : Bool) (l : String)
    (h : cond = true → cur = none → 3 ≤ lengthStr (lastTok l)) :
    scanStep cur cond l = .ok (firstSome cur (if cond then some (stripTok l) else none)) := by
  cases cur with
  | some x => cases cond <;> simp [scanStep, firstSome]
  | none =>
    cases cond with
    | false => simp [scanStep, firstSome]
    | true =>
      have h3 := h rfl rfl
      simp only [scanStep, Option.isNone_none, Bool.and_self, if_true]
      rw [lastTokOpt_eq]
      simp only [strip_dhcp_option]
      rw [if_neg (by omega)]
      rfl

theorem findMap_cons (p : String → Bool) (f : String → String) (l : String)
    (rest : List String) :
    firstSome (if p l then some (f l) else none) ((rest.find? p).map f)
      = (((l :: rest).find? p).map f) := by
  cases h : p l with
  | true => rw [List.find?_cons_of_pos _ h]; rfl
  | false => rw [List.find?_cons_of_neg _ (by simp [h])]; rfl

theorem scanLines_spec (ls : List String) :
    ∀ url fp : Option String,
    (∀ l ∈ ls, (isUrlLine l = true ∨ isFpLine l = true) → 3 ≤ lengthStr (lastTok l)) →
    scanLines ls url fp =
      .ok (firstSome url ((ls.find? isUrlLine).map stripTok),
           firstSome fp ((ls.find? isFpLine).map stripTok)) := by
  induction ls with
  | nil =>
    intro url fp _
    simp [scanLines, firstSome_none_right]
  | cons l rest ih =>
    intro url fp hwf
    have hl := hwf l (List.mem_cons_self _ _)
    have hu : scanStep url (isUrlLine l) l
        = .ok (firstSome url (if isUrlLine l then some (stripTok l) else none)) :=
      scanStep_ok _ _ _ (fun hc _ => hl (Or.inl hc))
    have hf : scanStep fp (isFpLine l) l
        = .ok (firstSome fp (if isFpLine l then some (stripTok l) else none)) :=
      scanStep_ok _ _ _ (fun hc _ => hl (Or.inr hc))
    simp only [scanLines, hu, hf]
    rw [ih _ _ (fun l' hm => hwf l' (List.mem_cons_of_mem _ hm))]
    rw [firstSome_assoc, firstSome_assoc, findMap_cons, findMap_cons]

/-- C4: for every lease-file content whose matched option lines carry a value
token of the expected size (a DHCP-quoted value `"…";` is at least three
bytes — without this the scan panics, see the C10 theorem), `fetch_dhcp`
adopts, for each of the two option names, the stripped value of the FIRST
line whose trimmed text begins with `option proxmoxinst-url` (respectively
`option proxmoxinst-fp`, only consulted when no fingerprint is already set),
ignoring all later matching lines; if no URL-option line matched, it returns
an error, while an absent fingerprint option is not an error. -/
theorem dhcp_first_match_wins (content : String) (fpin : Option String)
    (hwf : ∀ l ∈ linesOf content,
      (isUrlLine l = true ∨ isFpLine l = true) → 3 ≤ lengthStr (lastTok l)) :
    fetch_dhcp (some content) fpin =
      match (linesOf content).find? isUrlLine with
      | some l =>
          .ok (stripTok l, firstSome fpin (((linesOf content).find? isFpLine).map stripTok))
      | none => .err "No DHCP option found for fetch URL." := by
  simp only [fetch_dhcp]
  rw [scanLines_spec _ none fpin hwf]
  cases hfind : (linesOf content).find? isUrlLine with
  | none => simp only [hfind]; rfl
  | some l => simp only [hfind]; rfl

/-- Lease file of the C4 witness: two URL options (the first must win), one
fingerprint option. -/
def leaseC4 : String :=
  "option proxmoxinst-url \"http://first\";\noption proxmoxinst-url \"http://second\";\noption proxmoxinst-fp \"AB:CD\";"

theorem dhcp_first_match_wins_witness :
    fetch_dhcp (some leaseC4) none = .ok ("http://first", some "AB:CD") := by
  have h := dhcp_first_match_wins leaseC4 none (by decide)
  exact h.trans (by decide)

/- ---------- C6: TXT query failure condition ---------- -/

/-- C6 counterexample: an invocation for which the DNS tool exits
successfully and its output — two quote characters — is neither empty nor
whitespace-only, yet the query fails: the claimed "fails exactly when the
tool exits non-zero or its output is empty or whitespace-only" does not hold
as stated, because quote characters are removed before the emptiness test. -/
theorem query_txt_quotes_only_failure :
    query_txt_record (fun _ => .ran true (some "\"\"") (some "")) "proxmoxinst.example.com"
      = .error "Got empty response."
  ∧ ("\"\"" : String) ≠ ""
  ∧ trimStr "\"\"" ≠ "" :=
  ⟨by decide, by decide, by decide⟩

/-- C6 (amended): for every invocation whose DNS tool runs and produces
UTF-8 decodable output, the query fails exactly when the tool exits non-zero
(capturing the stderr text) or its output with all quote characters removed
and trimmed is empty (which subsumes empty and whitespace-only output); on
success it returns exactly that quote-stripped, trimmed output. -/
theorem query_txt_record_spec (dig : String → ProcOutput) (q : String) (b : Bool)
    (out errS : String) (hg : dig q = .ran b (some out) (some errS)) :
    query_txt_record dig q =
      (if b then
        (if trimStr (removeQuotes out) = "" then .error "Got empty response."
         else .ok (trimStr (removeQuotes out)))
       else .error ("Error querying DNS record '" ++ q ++ "' : " ++ errS)) := by
  simp only [query_txt_record, hg]

theorem query_txt_record_spec_witness :
    query_txt_record
        (fun _ => .ran true (some " \"http://cfg.example.com/a.toml\" ") (some ""))
        "proxmoxinst.example.com"
      = .ok "http://cfg.example.com/a.toml" := by
  have h := query_txt_record_spec
    (fun _ => .ran true (some " \"http://cfg.example.com/a.toml\" ") (some ""))
    "proxmoxinst.example.com" true " \"http://cfg.example.com/a.toml\" " "" rfl
  exact h.trans (by decide)

/- ---------- C7: partition label search ---------- -/

/-- C7: `scan_partlabels` returns the uppercase path whenever it exists
(regardless of the lowercase one), else the lowercase path when that exists,
else an error whose message carries the attempted label. -/
theorem scan_partlabels_spec (label dir : String)
    (tryExists : String → Except String Bool) :
    (tryExists (dir ++ "/" ++ toUpperStr label) = .ok true →
       scan_partlabels label dir tryExists = .ok (dir ++ "/" ++ toUpperStr label))
  ∧ (tryExists (dir ++ "/" ++ toUpperStr label) ≠ .ok true →
     tryExists (dir ++ "/" ++ toLowerStr label) = .ok true →
       scan_partlabels label dir tryExists = .ok (dir ++ "/" ++ toLowerStr label))
  ∧ (tryExists (dir ++ "/" ++ toUpperStr label) ≠ .ok true →
     tryExists (dir ++ "/" ++ toLowerStr label) ≠ .ok true →
       scan_partlabels label dir tryExists
         = .error ("Could not detect upper or lower case labels for '" ++ label ++ "'")) := by
  refine ⟨?_, ?_, ?_⟩
  · intro h
    simp only [scan_partlabels, h]
  · intro h1 h2
    simp only [scan_partlabels]
    cases hu : tryExists (dir ++ "/" ++ toUpperStr label) with
    | error e => simp only [h2]
    | ok b =>
      cases b with
      | true => exact absurd hu h1
      | false => simp only [h2]
  · intro h1 h2
    simp only [scan_partlabels]

/-- Filesystem of the C7 witness in which both case variants exist. -/
def fsBothCases : String → Except String Bool := fun p =>
  .ok (p == "/dev/disk/by-label/PROXMOXINST" || p == "/dev/disk/by-label/proxmoxinst")

/-- Filesystem of the C7 witness in which only the lowercase variant exists. -/
def fsLowerOnly : String → Except String Bool := fun p =>
  .ok (p == "/dev/disk/by-label/proxmoxinst")

/-- Filesystem of the C7 witness in which neither variant exists. -/
def fsNeither : String → Except String Bool := fun _ => .ok false

theorem scan_partlabels_spec_witness :
    scan_partlabels "proxmoxinst" "/dev/disk/by-label" fsBothCases
      = .ok "/dev/disk/by-label/PROXMOXINST"
  ∧ scan_partlabels "proxmoxinst" "/dev/disk/by-label" fsLowerOnly
      = .ok "/dev/disk/by-label/proxmoxinst"
  ∧ scan_partlabels "proxmoxinst" "/dev/disk/by-label" fsNeither
      = .error "Could not detect upper or lower case labels for 'proxmoxinst'" :=
  ⟨((scan_partlabels_spec "proxmoxinst" "/dev/disk/by-label" fsBothCases).1
      (by decide)).trans (by decide),
   ((scan_partlabels_spec "proxmoxinst" "/dev/disk/by-label" fsLowerOnly).2.1
      (by decide) (by decide)).trans (by decide),
   ((scan_partlabels_spec "proxmoxinst" "/dev/disk/by-label" fsNeither).2.2
      (by decide) (by decide)).trans (by decide)⟩

/- ---------- C8 / C9: idempotent mount ---------- -/

/-- C8: when the fixed mount point already appears as the mount-point field
of some line of the live mount table, `mount_proxmoxinst_part` returns the
mount-point path and performs zero partition scans, zero directory creations
and zero mount-command invocations. -/
theorem mount_skips_when_already_mounted (env : MountEnv) (mounts : String)
    (hm : env.procMounts = some mounts)
    (hl : (linesOf mounts).any (fun l => secondTok l == some ANSWER_MP) = true) :
    mount_proxmoxinst_part env = (.ok ANSWER_MP, ⟨0, 0, 0⟩) := by
  simp only [mount_proxmoxinst_part, check_if_mounted, hm, hl]

/-- Mount environment of the C8 witness: `/mnt/answer` is listed in the
mount table; every other operation is poisoned so that any attempt to use it
would be visible in the result. -/
def envC8 : MountEnv :=
  { procMounts := some "sysfs /sys sysfs rw 0 0\n/dev/sdb1 /mnt/answer iso9660 ro,relatime 0 0",
    tryExists := fun _ => .error "must not be consulted",
    createDir := .error "must not be created",
    mountCmd := .spawnErr "must not be mounted" }

theorem mount_skips_when_already_mounted_witness :
    mount_proxmoxinst_part envC8 = (.ok ANSWER_MP, ⟨0, 0, 0⟩) :=
  mount_skips_when_already_mounted envC8
    "sysfs /sys sysfs rw 0 0\n/dev/sdb1 /mnt/answer iso9660 ro,relatime 0 0" rfl (by decide)

/-- C9 (amended): a mount-command failure whose stderr is UTF-8 decodable is
only logged — `mount_proxmoxinst_part` still returns the mount-point path
successfully, so the caller later treats the fingerprint-file source as
absent instead of failing the whole resolution. -/
theorem mount_failure_still_returns_path (env : MountEnv) (p : String)
    (o : Option String) (errS : String)
    (h1 : check_if_mounted ANSWER_MP env.procMounts ≠ .ok true)
    (h2 : scan_partlabels PARTLABEL SEARCH_PATH env.tryExists = .ok p)
    (h3 : env.createDir = .ok ())
    (h4 : env.mountCmd = .ran false o (some errS)) :
    mount_proxmoxinst_part env = (.ok ANSWER_MP, ⟨1, 1, 1⟩) := by
  simp only [mount_proxmoxinst_part]
  cases hc : check_if_mounted ANSWER_MP env.procMounts with
  | error e => simp only [h2, h3, h4]; rfl
  | ok b =>
    cases b with
    | true => exact absurd hc h1
    | false => simp only [h2, h3, h4]; rfl

/-- C9 counterexample: a mount-command failure whose stderr bytes are not
valid UTF-8 makes `String::from_utf8(output.stderr)?` abort
`mount_proxmoxinst_part` with an error instead of returning the mount-point
path, so the claim "every failure of the mount command does not abort" fails
on this input. -/
theorem mount_failure_bad_stderr_aborts :
    mount_proxmoxinst_part
        { procMounts := some "",
          tryExists := fun p => .ok (p == "/dev/disk/by-label/PROXMOXINST"),
          createDir := .ok (),
          mountCmd := .ran false (some "") none }
      = (.error "stderr is not valid UTF-8", ⟨1, 1, 1⟩) := by
  decide

/-- Mount environment of the C9 witness: not mounted yet, partition found,
directory created, and the mount command fails with decodable stderr. -/
def envC9 : MountEnv :=
  { procMounts := some "sysfs /sys sysfs rw 0 0",
    tryExists := fun p => .ok (p == "/dev/disk/by-label/PROXMOXINST"),
    createDir := .ok (),
    mountCmd := .ran false (some "") (some "mount: wrong fs type, bad option") }

theorem mount_failure_still_returns_path_witness :
    mount_proxmoxinst_part envC9 = (.ok ANSWER_MP, ⟨1, 1, 1⟩) :=
  mount_failure_still_returns_path envC9 "/dev/disk/by-label/PROXMOXINST"
    (some "") "mount: wrong fs type, bad option" (by decide) (by decide) rfl rfl

end PveInstaller
